import Mathlib

-- ===========================================================================
-- Verification development for the bakery payment server (src/server.js).
--
-- Part 1 models the external crypto dependency used at src/server.js:151-154:
-- Node's crypto.createHmac("sha256", secret).update(msg).digest("hex"),
-- i.e. HMAC-SHA256 (RFC 2104) over SHA-256 (FIPS 180-4), with the message
-- encoded as UTF-8 bytes and the digest rendered as lowercase hex.
-- Bytes and 32-bit words are modelled as Nat with explicit % 2^32 masking.
-- ===========================================================================

set_option maxRecDepth 4096

/-- Truncate to a 32-bit word. -/
def w32 (x : Nat) : Nat := x % 4294967296

/-- 32-bit rotate right. -/
def rotr32 (n x : Nat) : Nat := w32 ((x >>> n) ||| (x <<< (32 - n)))

/-- 32-bit logical shift right. -/
def shr32 (n x : Nat) : Nat := x >>> n

/-- 32-bit bitwise complement. -/
def not32 (x : Nat) : Nat := Nat.xor x 4294967295

/-- SHA-256 choice function. -/
def ch32 (x y z : Nat) : Nat := Nat.xor (Nat.land x y) (Nat.land (not32 x) z)

/-- SHA-256 majority function. -/
def maj32 (x y z : Nat) : Nat :=
  Nat.xor (Nat.xor (Nat.land x y) (Nat.land x z)) (Nat.land y z)

/-- SHA-256 big sigma 0. -/
def bigSigma0 (x : Nat) : Nat := Nat.xor (Nat.xor (rotr32 2 x) (rotr32 13 x)) (rotr32 22 x)

/-- SHA-256 big sigma 1. -/
def bigSigma1 (x : Nat) : Nat := Nat.xor (Nat.xor (rotr32 6 x) (rotr32 11 x)) (rotr32 25 x)

/-- SHA-256 small sigma 0. -/
def smallSigma0 (x : Nat) : Nat := Nat.xor (Nat.xor (rotr32 7 x) (rotr32 18 x)) (shr32 3 x)

/-- SHA-256 small sigma 1. -/
def smallSigma1 (x : Nat) : Nat := Nat.xor (Nat.xor (rotr32 17 x) (rotr32 19 x)) (shr32 10 x)

/-- The 64 SHA-256 round constants (FIPS 180-4 section 4.2.2). -/
def sha256K : List Nat :=
  [1116352408, 1899447441, 3049323471, 3921009573,
   961987163, 1508970993, 2453635748, 2870763221,
   3624381080, 310598401, 607225278, 1426881987,
   1925078388, 2162078206, 2614888103, 3248222580,
   3835390401, 4022224774, 264347078, 604807628,
   770255983, 1249150122, 1555081692, 1996064986,
   2554220882, 2821834349, 2952996808, 3210313671,
   3336571891, 3584528711, 113926993, 338241895,
   666307205, 773529912, 1294757372, 1396182291,
   1695183700, 1986661051, 2177026350, 2456956037,
   2730485921, 2820302411, 3259730800, 3345764771,
   3516065817, 3600352804, 4094571909, 275423344,
   430227734, 506948616, 659060556, 883997877,
   958139571, 1322822218, 1537002063, 1747873779,
   1955562222, 2024104815, 2227730452, 2361852424,
   2428436474, 2756734187, 3204031479, 3329325298]

/-- The eight 32-bit working variables of SHA-256. -/
structure Hash8 where
  a : Nat
  b : Nat
  c : Nat
  d : Nat
  e : Nat
  f : Nat
  g : Nat
  h : Nat
deriving DecidableEq, Repr

/-- SHA-256 initial hash value (FIPS 180-4 section 5.3.3). -/
def sha256H0 : Hash8 :=
  ⟨1779033703, 3144134277, 1013904242, 2773480762,
   1359893119, 2600822924, 528734635, 1541459225⟩

/-- Big-endian bytes of `x`, `n` bytes wide. -/
def natToBytesBE (n x : Nat) : List Nat :=
  (List.range n).map (fun i => (x >>> (8 * (n - 1 - i))) % 256)

/-- Group a byte list into big-endian 32-bit words, four bytes at a time. -/
def bytesToWordsBE : List Nat → List Nat
  | b0 :: b1 :: b2 :: b3 :: rest =>
    (b0 * 16777216 + b1 * 65536 + b2 * 256 + b3) :: bytesToWordsBE rest
  | _ => []

/-- One step of the SHA-256 message-schedule extension: append word `W[i]`
computed from `W[i-2]`, `W[i-7]`, `W[i-15]`, `W[i-16]`. -/
def sha256ExtendStep (w : List Nat) : List Nat :=
  let i := w.length
  w ++ [w32 (w.getD (i - 16) 0 + smallSigma0 (w.getD (i - 15) 0)
             + w.getD (i - 7) 0 + smallSigma1 (w.getD (i - 2) 0))]

/-- Iterate the message-schedule extension `n` times. -/
def sha256Extend : Nat → List Nat → List Nat
  | 0, w => w
  | n + 1, w => sha256Extend n (sha256ExtendStep w)

/-- One SHA-256 compression round on the eight working variables. -/
def sha256Round (s : Hash8) (kw : Nat × Nat) : Hash8 :=
  let t1 := w32 (s.h + bigSigma1 s.e + ch32 s.e s.f s.g + kw.1 + kw.2)
  let t2 := w32 (bigSigma0 s.a + maj32 s.a s.b s.c)
  ⟨w32 (t1 + t2), s.a, s.b, s.c, w32 (s.d + t1), s.e, s.f, s.g⟩

/-- SHA-256 compression of one 64-byte block into the running hash. -/
def sha256Compress (h0 : Hash8) (block : List Nat) : Hash8 :=
  let ws := sha256Extend 48 (bytesToWordsBE block)
  let s := (sha256K.zip ws).foldl sha256Round h0
  ⟨w32 (h0.a + s.a), w32 (h0.b + s.b), w32 (h0.c + s.c), w32 (h0.d + s.d),
   w32 (h0.e + s.e), w32 (h0.f + s.f), w32 (h0.g + s.g), w32 (h0.h + s.h)⟩

/-- Fold the compression function over `n` consecutive 64-byte blocks. -/
def sha256Go : Nat → Hash8 → List Nat → Hash8
  | 0, h, _ => h
  | n + 1, h, l => sha256Go n (sha256Compress h (l.take 64)) (l.drop 64)

/-- SHA-256 padding: append 0x80, zeros to 56 mod 64, then the 64-bit
big-endian bit length. -/
def padMessage (msg : List Nat) : List Nat :=
  msg ++ [128] ++ List.replicate ((119 - msg.length % 64) % 64) 0
      ++ natToBytesBE 8 (8 * msg.length)

/-- Serialize the final hash state as 32 big-endian bytes. -/
def hash8Bytes (h : Hash8) : List Nat :=
  natToBytesBE 4 h.a ++ natToBytesBE 4 h.b ++ natToBytesBE 4 h.c ++ natToBytesBE 4 h.d
    ++ natToBytesBE 4 h.e ++ natToBytesBE 4 h.f ++ natToBytesBE 4 h.g ++ natToBytesBE 4 h.h

/-- SHA-256 of a byte list. -/
def sha256 (msg : List Nat) : List Nat :=
  let p := padMessage msg
  hash8Bytes (sha256Go (p.length / 64) sha256H0 p)

/-- HMAC-SHA256 (RFC 2104): block size 64 bytes, ipad 0x36, opad 0x5c. -/
def hmacSha256 (key msg : List Nat) : List Nat :=
  let k0 := if 64 < key.length then sha256 key else key
  let kp := k0 ++ List.replicate (64 - k0.length) 0
  sha256 ((kp.map (fun b => Nat.xor b 92)) ++ sha256 ((kp.map (fun b => Nat.xor b 54)) ++ msg))

/-- Lowercase hex digit for a nibble. -/
def hexDigitChar (n : Nat) : Char :=
  if n < 10 then Char.ofNat (48 + n) else Char.ofNat (87 + n)

/-- Two lowercase hex digits for a byte. -/
def byteToHex (b : Nat) : List Char := [hexDigitChar (b / 16), hexDigitChar (b % 16)]

/-- Render a byte list as a lowercase hex string. -/
def bytesToHex (bs : List Nat) : String := ⟨(bs.map byteToHex).flatten⟩

/-- UTF-8 encoding of one character. -/
def charUtf8 (c : Char) : List Nat :=
  let n := c.toNat
  if n < 128 then [n]
  else if n < 2048 then [192 + n / 64, 128 + n % 64]
  else if n < 65536 then [224 + n / 4096, 128 + (n / 64) % 64, 128 + n % 64]
  else [240 + n / 262144, 128 + (n / 4096) % 64, 128 + (n / 64) % 64, 128 + n % 64]

/-- UTF-8 bytes of a string, as Node's hmac.update(msg) consumes it. -/
def strBytes (s : String) : List Nat := (s.data.map charUtf8).flatten

/-- Model of `crypto.createHmac("sha256", secret).update(msg).digest("hex")`
(src/server.js:151-154). -/
def hmacSha256Hex (secret msg : String) : String :=
  bytesToHex (hmacSha256 (strBytes secret) (strBytes msg))

-- ===========================================================================
-- Part 2: the document store and the server's stock operations.
--
-- The Firestore instance is modelled as two collections of documents keyed by
-- id ('bakeryItems' and 'orders'), each an association list with unique keys
-- (Firestore document ids are unique; lookup and update use the first match).
-- `update` on a missing document rejects (Firestore NOT_FOUND), which the
-- handlers surface through their catch-all 500 branch; a failed batch commit
-- applies none of its writes.
-- ===========================================================================

/-- A 'bakeryItems' document: the quantity field may be absent
(src/server.js:79 reads `snap.data().quantity ?? 0`). -/
structure StockDoc where
  quantity : Option Int
deriving DecidableEq, Repr

/-- One entry of the client-supplied `orderItems` array (src/server.js:110). -/
structure OrderItemReq where
  id : String
  quantity : Int
deriving DecidableEq, Repr

/-- One entry of a persisted Order document's `items` array; the server reads
`item.productId || item.id` (src/server.js:163). -/
structure OrderItemDoc where
  productId : Option String
  id : Option String
  quantity : Int
deriving DecidableEq, Repr

/-- An 'orders' document, with the fields this workflow reads or writes. -/
structure OrderDoc where
  items : Option (List OrderItemDoc)
  paymentStatus : Option String
  orderStatus : Option String
  razorpayPaymentId : Option String
deriving DecidableEq, Repr

/-- The persistent store: both Firestore collections used by the server. -/
structure Store where
  bakeryItems : List (String × StockDoc)
  orders : List (String × OrderDoc)
deriving DecidableEq, Repr

/-- Look up a document by id (first match). -/
def getDoc {α : Type} : List (String × α) → String → Option α
  | [], _ => none
  | (k, v) :: rest, id => if k = id then some v else getDoc rest id

/-- Replace the document at `id` (first match); no-op when absent. -/
def setDoc {α : Type} : List (String × α) → String → α → List (String × α)
  | [], _, _ => []
  | (k, v) :: rest, id, nv => if k = id then (k, nv) :: rest else (k, v) :: setDoc rest id nv

/-- The effective quantity of a stock document id: `none` when the document is
missing, otherwise the quantity field with a missing field read as 0. -/
def qtyOf (st : Store) (id : String) : Option Int :=
  (getDoc st.bakeryItems id).map (fun d => d.quantity.getD 0)

/-- Result of `checkStockAvailability` (src/server.js:72-85). -/
inductive StockCheck
  | available
  | unavailable (message : String)
deriving DecidableEq, Repr

/-- `checkStockAvailability` (src/server.js:72-85): reads each requested item
in order; fails on the first item whose document is missing or whose quantity
(missing field read as 0) is below the requested amount. Never mutates. -/
def checkStockAvailability (st : Store) : List OrderItemReq → StockCheck
  | [] => .available
  | item :: rest =>
    match getDoc st.bakeryItems item.id with
    | none => .unavailable ("Item with id " ++ item.id ++ " not found")
    | some snap =>
      if snap.quantity.getD 0 < item.quantity then
        .unavailable ("Item " ++ item.id ++ " out of stock")
      else checkStockAvailability st rest

/-- Apply a batch of `FieldValue.increment` updates in order. `none` models a
batch whose commit throws (some document missing): no write is applied.
A missing quantity field is set to the increment, i.e. read as 0. -/
def applyIncrements : Store → List (String × Int) → Option Store
  | st, [] => some st
  | st, (id, d) :: rest =>
    match getDoc st.bakeryItems id with
    | none => none
    | some doc =>
      applyIncrements
        { st with bakeryItems := setDoc st.bakeryItems id ⟨some (doc.quantity.getD 0 + d)⟩ }
        rest

/-- `decrementStock` (src/server.js:88-95): one batch of per-item
`increment(-item.quantity)` updates. -/
def decrementStock (st : Store) (items : List OrderItemReq) : Option Store :=
  applyIncrements st (items.map (fun i => (i.id, -i.quantity)))

/-- `restockItems` (src/server.js:98-105): one batch of per-item
`increment(item.quantity)` updates. -/
def restockItems (st : Store) (items : List OrderItemReq) : Option Store :=
  applyIncrements st (items.map (fun i => (i.id, i.quantity)))

-- ===========================================================================
-- Part 3: the two HTTP handlers.
-- ===========================================================================

/-- Outcome of the external `razorpay.orders.create` call (src/server.js:129):
either the created gateway order (opaque id here) or a thrown error. -/
inductive GwResult
  | ok (orderId : String)
  | err (message : String)
deriving DecidableEq, Repr

/-- Response of POST /api/payment-order. -/
inductive POResp
  | badRequest (error : String)
  | ok (paymentOrder : String)
  | serverError (error : String)
deriving DecidableEq, Repr

/-- Observable outcome of one POST /api/payment-order request: the HTTP
response, the store after the request, and whether the gateway
`orders.create` call was made. -/
structure POOut where
  resp : POResp
  store : Store
  gatewayCalled : Bool
deriving DecidableEq, Repr

/-- JS validation `!amount || typeof amount !== "number" || amount <= 0`
(src/server.js:112), with `none` standing for a missing or non-number field. -/
def amountValid : Option Int → Bool
  | none => false
  | some a => decide (0 < a)

/-- POST /api/payment-order (src/server.js:108-140). `orderItems = none`
stands for a missing or non-array field. The gateway call outcome is passed
as the oracle `gw`; a thrown gateway error reaches the catch-all and is
returned as a 500 with the error message, with no compensation. -/
def paymentOrderHandler (st : Store) (gw : GwResult)
    (amount : Option Int) (orderItems : Option (List OrderItemReq)) : POOut :=
  if !amountValid amount then
    ⟨.badRequest "Amount is required and must be a positive number.", st, false⟩
  else
    match orderItems with
    | none => ⟨.badRequest "Order items are required.", st, false⟩
    | some items =>
      if items.isEmpty then ⟨.badRequest "Order items are required.", st, false⟩
      else
        match checkStockAvailability st items with
        | .unavailable msg => ⟨.badRequest msg, st, false⟩
        | .available =>
          match decrementStock st items with
          | none => ⟨.serverError "stock update failed", st, false⟩
          | some st1 =>
            match gw with
            | .ok oid => ⟨.ok oid, st1, true⟩
            | .err m => ⟨.serverError m, st1, true⟩

/-- Response of POST /api/payment-verify. -/
inductive PVResp
  | missingFields
  | cancelled
  | notFound
  | confirmed
  | serverError (error : String)
deriving DecidableEq, Repr

/-- Observable outcome of one POST /api/payment-verify request. The handler
never calls `refundPayment` (src/server.js:50-69 is defined but unused), so
`refundCalled` is false on every path. -/
structure PVOut where
  resp : PVResp
  store : Store
  refundCalled : Bool
deriving DecidableEq, Repr

/-- JS truthiness of an optional string field: present and non-empty. -/
def jsTruthy : Option String → Bool
  | none => false
  | some s => !s.data.isEmpty

/-- The signature comparison the server performs at src/server.js:156:
plain string equality (the JS `!==` test), NOT a constant-time comparison
such as `crypto.timingSafeEqual`. -/
def signaturesEqual (generated claimed : String) : Bool := generated == claimed

/-- Whether the verify endpoint takes its success branch: the computed
HMAC hex digest of `orderId + "|" + paymentId` equals the claimed signature
(src/server.js:151-156). -/
def verifyAccepts (secret oid pid sig : String) : Bool :=
  signaturesEqual (hmacSha256Hex secret (oid ++ "|" ++ pid)) sig

/-- JS `item.productId || item.id` (src/server.js:163): first truthy of the
two; `none` when both are missing or empty, in which case building the
restock batch throws (`.doc(undefined)` / empty path). -/
def resolvedId (it : OrderItemDoc) : Option String :=
  match it.productId with
  | some s => if s = "" then (match it.id with
      | some t => if t = "" then none else some t
      | none => none)
    else some s
  | none =>
    match it.id with
    | some t => if t = "" then none else some t
    | none => none

/-- Map a persisted order's items to `{id, quantity}` pairs as
src/server.js:162-165 does; `none` when some item has no usable id. -/
def mapOrderItems : List OrderItemDoc → Option (List OrderItemReq)
  | [] => some []
  | it :: rest =>
    match resolvedId it with
    | none => none
    | some i => (mapOrderItems rest).map (fun l => ⟨i, it.quantity⟩ :: l)

/-- `orderRef.update(f)` on the orders collection: rejects (`none`, Firestore
NOT_FOUND) when the document is missing. -/
def updateOrderDoc (st : Store) (odid : String) (f : OrderDoc → OrderDoc) : Option Store :=
  match getDoc st.orders odid with
  | none => none
  | some od => some { st with orders := setDoc st.orders odid (f od) }

/-- The cancellation update of src/server.js:168-171. -/
def cancelOrder (od : OrderDoc) : OrderDoc :=
  { od with paymentStatus := some "cancelled", orderStatus := some "cancelled" }

/-- The confirmation update of src/server.js:198-202. -/
def confirmOrder (pid : String) (od : OrderDoc) : OrderDoc :=
  { od with paymentStatus := some "confirmed", orderStatus := some "confirmed",
            razorpayPaymentId := some pid }

/-- The signature-mismatch branch of POST /api/payment-verify
(src/server.js:156-177): restock from the persisted order when it exists,
then unconditionally update the order to cancelled/cancelled. Any thrown
store error (missing documents) reaches the catch-all 500. -/
def mismatchBranch (st : Store) (odid : String) : PVOut :=
  match getDoc st.orders odid with
  | some od =>
    match mapOrderItems (od.items.getD []) with
    | none => ⟨.serverError "invalid document path", st, false⟩
    | some items =>
      match restockItems st items with
      | none => ⟨.serverError "no document to update", st, false⟩
      | some st1 =>
        match updateOrderDoc st1 odid cancelOrder with
        | none => ⟨.serverError "no document to update", st1, false⟩
        | some st2 => ⟨.cancelled, st2, false⟩
  | none => ⟨.serverError "no document to update", st, false⟩

/-- The success branch of POST /api/payment-verify (src/server.js:179-207):
404 when the order document is missing, otherwise confirm the order. No
stock check or stock mutation is performed here (src/server.js:195). -/
def successBranch (st : Store) (pid odid : String) : PVOut :=
  match getDoc st.orders odid with
  | none => ⟨.notFound, st, false⟩
  | some _ =>
    match updateOrderDoc st odid (confirmOrder pid) with
    | none => ⟨.serverError "no document to update", st, false⟩
    | some st1 => ⟨.confirmed, st1, false⟩

/-- POST /api/payment-verify (src/server.js:143-215). Each request field is
`none` when absent; JS falsiness also rejects present-but-empty strings. -/
def paymentVerifyHandler (secret : String) (st : Store)
    (oid pid sig odid : Option String) : PVOut :=
  if !(jsTruthy oid && jsTruthy pid && jsTruthy sig && jsTruthy odid) then
    ⟨.missingFields, st, false⟩
  else if !verifyAccepts secret (oid.getD "") (pid.getD "") (sig.getD "") then
    mismatchBranch st (odid.getD "")
  else
    successBranch st (pid.getD "") (odid.getD "")

-- ===========================================================================
-- Part 4: sequential executions of the workflow (for the stock invariant).
-- ===========================================================================

/-- One workflow request: either endpoint, with its inputs and the gateway
oracle for the order endpoint. -/
inductive Op
  | po (gw : GwResult) (amount : Option Int) (items : Option (List OrderItemReq))
  | pv (secret : String) (oid pid sig odid : Option String)
deriving Repr

/-- The store after running one request. -/
def runOp (st : Store) : Op → Store
  | .po gw a items => (paymentOrderHandler st gw a items).store
  | .pv secret oid pid sig odid => (paymentVerifyHandler secret st oid pid sig odid).store

/-- The store after running a sequence of requests, in order. -/
def runOps : Store → List Op → Store
  | st, [] => st
  | st, op :: rest => runOps (runOp st op) rest

/-- Every stock quantity in the store is non-negative. -/
def stockNonneg (st : Store) : Prop :=
  ∀ p ∈ st.bakeryItems, 0 ≤ p.2.quantity.getD 0

/-- Every item quantity of every persisted order is non-negative
(the spec's data model requires order item quantities to be positive). -/
def ordersNonneg (st : Store) : Prop :=
  ∀ p ∈ st.orders, ∀ it ∈ p.2.items.getD [], 0 ≤ it.quantity

/-- Store well-formedness: document ids are unique within each collection,
as Firestore guarantees. -/
def storeWF (st : Store) : Prop :=
  (st.bakeryItems.map Prod.fst).Nodup ∧ (st.orders.map Prod.fst).Nodup

/-- A payment-order request names each stock item at most once. -/
def opDistinct : Op → Bool
  | .po _ _ (some items) => decide (items.map OrderItemReq.id).Nodup
  | _ => true

instance (st : Store) : Decidable (stockNonneg st) :=
  List.decidableBAll _ _

instance (st : Store) : Decidable (ordersNonneg st) :=
  List.decidableBAll _ _

instance (st : Store) : Decidable (storeWF st) :=
  inferInstanceAs (Decidable (_ ∧ _))

/-- Net increment a batch applies to a given document id. -/
def incSum : List (String × Int) → String → Int
  | [], _ => 0
  | (k, d) :: rest, id => (if k = id then d else 0) + incSum rest id

/-- A requested item that `checkStockAvailability` must reject: its document
is missing, or its quantity (missing field read as 0) is below the request. -/
def itemUnavailableB (st : Store) (item : OrderItemReq) : Bool :=
  match getDoc st.bakeryItems item.id with
  | none => true
  | some d => decide (d.quantity.getD 0 < item.quantity)

/-- The conjunction of the store sanity conditions used by the stock
invariant: unique document ids, non-negative stock quantities, and
non-negative persisted order item quantities. -/
def goodStore (st : Store) : Prop :=
  storeWF st ∧ stockNonneg st ∧ ordersNonneg st

-- ===========================================================================
-- Part 5: helper lemmas about the store primitives.
-- ===========================================================================

theorem getDoc_mem {α : Type} {l : List (String × α)} {id : String} {v : α}
    (h : getDoc l id = some v) : (id, v) ∈ l := by
  induction l with
  | nil => simp [getDoc] at h
  | cons p rest ih =>
    obtain ⟨k, w⟩ := p
    by_cases hk : k = id
    · subst hk
      simp [getDoc] at h
      subst h
      exact List.mem_cons_self _ _
    · simp [getDoc, hk] at h
      exact List.mem_cons_of_mem _ (ih h)

theorem mem_getDoc_nodup {α : Type} {l : List (String × α)}
    (hn : (l.map Prod.fst).Nodup) {id : String} {v : α}
    (h : (id, v) ∈ l) : getDoc l id = some v := by
  induction l with
  | nil => simp at h
  | cons p rest ih =>
    obtain ⟨k, w⟩ := p
    simp only [List.map_cons, List.nodup_cons] at hn
    rcases List.mem_cons.mp h with heq | hmem
    · cases heq
      simp [getDoc]
    · by_cases hk : k = id
      · subst hk
        exact absurd (List.mem_map.mpr ⟨(k, v), hmem, rfl⟩) hn.1
      · simp only [getDoc, hk, if_false]
        exact ih hn.2 hmem

theorem getDoc_setDoc_self {α : Type} (l : List (String × α)) (k : String) (v : α) :
    getDoc (setDoc l k v) k = (getDoc l k).map (fun _ => v) := by
  induction l with
  | nil => simp [getDoc, setDoc]
  | cons p rest ih =>
    obtain ⟨k', w⟩ := p
    by_cases hk : k' = k
    · subst hk
      simp [getDoc, setDoc]
    · simp [getDoc, setDoc, hk, ih]

theorem getDoc_setDoc_ne {α : Type} (l : List (String × α)) {k id : String} (v : α)
    (h : id ≠ k) : getDoc (setDoc l k v) id = getDoc l id := by
  induction l with
  | nil => simp [getDoc, setDoc]
  | cons p rest ih =>
    obtain ⟨k', w⟩ := p
    by_cases hk : k' = k
    · subst hk
      simp [getDoc, setDoc, Ne.symm h]
    · by_cases hid : k' = id
      · subst hid
        simp [getDoc, setDoc, hk]
      · simp [getDoc, setDoc, hk, hid, ih]

theorem setDoc_keys {α : Type} (l : List (String × α)) (k : String) (v : α) :
    (setDoc l k v).map Prod.fst = l.map Prod.fst := by
  induction l with
  | nil => simp [setDoc]
  | cons p rest ih =>
    obtain ⟨k', w⟩ := p
    by_cases hk : k' = k
    · subst hk
      simp [setDoc]
    · simp [setDoc, hk, ih]

theorem setDoc_mem {α : Type} {l : List (String × α)} {k : String} {v : α}
    {p : String × α} (h : p ∈ setDoc l k v) : p ∈ l ∨ p = (k, v) := by
  induction l with
  | nil => simp [setDoc] at h
  | cons q rest ih =>
    obtain ⟨k', w⟩ := q
    by_cases hk : k' = k
    · subst hk
      simp only [setDoc, if_pos rfl] at h
      rcases List.mem_cons.mp h with heq | hmem
      · right; exact heq
      · left; exact List.mem_cons_of_mem _ hmem
    · simp only [setDoc, if_neg hk] at h
      rcases List.mem_cons.mp h with heq | hmem
      · left; exact heq ▸ List.mem_cons_self _ _
      · rcases ih hmem with h1 | h2
        · left; exact List.mem_cons_of_mem _ h1
        · right; exact h2

theorem qtyOf_update_self (st : Store) (k : String) (doc nd : StockDoc)
    (hg : getDoc st.bakeryItems k = some doc) :
    qtyOf (Store.mk (setDoc st.bakeryItems k nd) st.orders) k
      = some (nd.quantity.getD 0) := by
  simp only [qtyOf, getDoc_setDoc_self, hg]
  rfl

theorem qtyOf_update_ne (st : Store) {k id : String} (nd : StockDoc) (h : id ≠ k) :
    qtyOf (Store.mk (setDoc st.bakeryItems k nd) st.orders) id = qtyOf st id := by
  simp only [qtyOf]
  rw [getDoc_setDoc_ne _ _ h]

theorem applyIncrements_orders {st st' : Store} {incs : List (String × Int)}
    (h : applyIncrements st incs = some st') : st'.orders = st.orders := by
  induction incs generalizing st with
  | nil =>
    simp only [applyIncrements, Option.some.injEq] at h
    rw [← h]
  | cons p rest ih =>
    obtain ⟨k, d⟩ := p
    cases hg : getDoc st.bakeryItems k with
    | none =>
      simp only [applyIncrements, hg] at h
      exact Option.noConfusion h
    | some doc =>
      simp only [applyIncrements, hg] at h
      have hh := ih h
      exact hh

theorem applyIncrements_keys {st st' : Store} {incs : List (String × Int)}
    (h : applyIncrements st incs = some st') :
    st'.bakeryItems.map Prod.fst = st.bakeryItems.map Prod.fst := by
  induction incs generalizing st with
  | nil =>
    simp only [applyIncrements, Option.some.injEq] at h
    rw [← h]
  | cons p rest ih =>
    obtain ⟨k, d⟩ := p
    cases hg : getDoc st.bakeryItems k with
    | none =>
      simp only [applyIncrements, hg] at h
      exact Option.noConfusion h
    | some doc =>
      simp only [applyIncrements, hg] at h
      have hh := ih h
      rw [hh]
      exact setDoc_keys ..

theorem applyIncrements_qtyOf {st st' : Store} {incs : List (String × Int)}
    (h : applyIncrements st incs = some st') :
    ∀ id, qtyOf st' id = (qtyOf st id).map (fun v => v + incSum incs id) := by
  induction incs generalizing st with
  | nil =>
    intro id
    simp only [applyIncrements, Option.some.injEq] at h
    rw [← h]
    cases qtyOf st id <;> simp [incSum]
  | cons p rest ih =>
    obtain ⟨k, d⟩ := p
    intro id
    cases hg : getDoc st.bakeryItems k with
    | none =>
      simp only [applyIncrements, hg] at h
      exact Option.noConfusion h
    | some doc =>
      simp only [applyIncrements, hg] at h
      have step := ih h id
      by_cases hid : id = k
      · subst hid
        rw [step, qtyOf_update_self st id doc _ hg]
        have hq : qtyOf st id = some (doc.quantity.getD 0) := by
          simp [qtyOf, hg]
        rw [hq]
        simp [incSum, add_assoc]
      · rw [step, qtyOf_update_ne st _ hid]
        have hsum : incSum ((k, d) :: rest) id = incSum rest id := by
          simp [incSum, Ne.symm hid]
        rw [hsum]

theorem applyIncrements_isSome {st : Store} {incs : List (String × Int)}
    (h : ∀ p ∈ incs, ∃ doc, getDoc st.bakeryItems p.1 = some doc) :
    ∃ st', applyIncrements st incs = some st' := by
  induction incs generalizing st with
  | nil => exact ⟨st, rfl⟩
  | cons p rest ih =>
    obtain ⟨k, d⟩ := p
    obtain ⟨doc, hdoc⟩ := h (k, d) (List.mem_cons_self _ _)
    have hrest : ∀ q ∈ rest, ∃ doc2,
        getDoc (setDoc st.bakeryItems k ⟨some (doc.quantity.getD 0 + d)⟩) q.1
          = some doc2 := by
      intro q hq
      obtain ⟨doc2, hdoc2⟩ := h q (List.mem_cons_of_mem _ hq)
      by_cases hk : q.1 = k
      · refine ⟨⟨some (doc.quantity.getD 0 + d)⟩, ?_⟩
        rw [hk, getDoc_setDoc_self, hdoc]
        rfl
      · refine ⟨doc2, ?_⟩
        rw [getDoc_setDoc_ne _ _ hk]
        exact hdoc2
    obtain ⟨st', hst'⟩ := @ih
      (Store.mk (setDoc st.bakeryItems k ⟨some (doc.quantity.getD 0 + d)⟩) st.orders) hrest
    refine ⟨st', ?_⟩
    simp only [applyIncrements, hdoc]
    exact hst'

theorem incSum_of_not_mem {incs : List (String × Int)} {id : String}
    (h : ∀ p ∈ incs, p.1 ≠ id) : incSum incs id = 0 := by
  induction incs with
  | nil => rfl
  | cons p rest ih =>
    obtain ⟨k, d⟩ := p
    have hk : k ≠ id := h (k, d) (List.mem_cons_self _ _)
    simp only [incSum, if_neg hk]
    rw [ih (fun q hq => h q (List.mem_cons_of_mem _ hq))]
    simp

theorem incSum_nonneg {incs : List (String × Int)} {id : String}
    (h : ∀ p ∈ incs, 0 ≤ p.2) : 0 ≤ incSum incs id := by
  induction incs with
  | nil => simp [incSum]
  | cons p rest ih =>
    obtain ⟨k, d⟩ := p
    have h1 : (0 : Int) ≤ d := h (k, d) (List.mem_cons_self _ _)
    have h2 := ih (fun q hq => h q (List.mem_cons_of_mem _ hq))
    simp only [incSum]
    by_cases hk : k = id
    · simp only [if_pos hk]; omega
    · simp only [if_neg hk]; omega

theorem incSum_nodup_map {items : List OrderItemReq} (f : OrderItemReq → Int)
    (hn : (items.map OrderItemReq.id).Nodup) {it : OrderItemReq} (hit : it ∈ items) :
    incSum (items.map (fun i => (i.id, f i))) it.id = f it := by
  induction items with
  | nil => simp at hit
  | cons j rest ih =>
    simp only [List.map_cons, List.nodup_cons] at hn
    rcases List.mem_cons.mp hit with heq | hmem
    · subst heq
      have hnm : ∀ p ∈ rest.map (fun i => (i.id, f i)), p.1 ≠ it.id := by
        intro p hp
        obtain ⟨i, hi, rfl⟩ := List.mem_map.mp hp
        intro hcon
        exact hn.1 (List.mem_map.mpr ⟨i, hi, hcon⟩)
      simp [incSum, incSum_of_not_mem hnm]
    · have hne : j.id ≠ it.id := by
        intro hcon
        exact hn.1 (hcon ▸ List.mem_map.mpr ⟨it, hmem, rfl⟩)
      simp only [List.map_cons, incSum, if_neg hne]
      rw [ih hn.2 hmem]
      omega

theorem check_available_mem {st : Store} {items : List OrderItemReq}
    (h : checkStockAvailability st items = .available) :
    ∀ item ∈ items, ∃ d, getDoc st.bakeryItems item.id = some d
      ∧ item.quantity ≤ d.quantity.getD 0 := by
  induction items with
  | nil => simp
  | cons j rest ih =>
    intro item hitem
    cases hg : getDoc st.bakeryItems j.id with
    | none =>
      simp only [checkStockAvailability, hg] at h
      exact StockCheck.noConfusion h
    | some snap =>
      simp only [checkStockAvailability, hg] at h
      by_cases hlt : snap.quantity.getD 0 < j.quantity
      · rw [if_pos hlt] at h
        exact StockCheck.noConfusion h
      · rw [if_neg hlt] at h
        rcases List.mem_cons.mp hitem with heq | hmem
        · subst heq
          exact ⟨snap, hg, le_of_not_lt hlt⟩
        · exact ih h item hmem

theorem check_unavailable_of_bad {st : Store} {items : List OrderItemReq}
    (h : ∃ item ∈ items, itemUnavailableB st item = true) :
    ∃ msg, checkStockAvailability st items = .unavailable msg ∧
      ∃ bad ∈ items, itemUnavailableB st bad = true ∧
        (msg = "Item with id " ++ bad.id ++ " not found"
          ∨ msg = "Item " ++ bad.id ++ " out of stock") := by
  induction items with
  | nil => simp at h
  | cons j rest ih =>
    cases hg : getDoc st.bakeryItems j.id with
    | none =>
      refine ⟨"Item with id " ++ j.id ++ " not found", ?_,
        j, List.mem_cons_self _ _, ?_, Or.inl rfl⟩
      · simp only [checkStockAvailability, hg]
      · simp [itemUnavailableB, hg]
    | some snap =>
      by_cases hlt : snap.quantity.getD 0 < j.quantity
      · refine ⟨"Item " ++ j.id ++ " out of stock", ?_,
          j, List.mem_cons_self _ _, ?_, Or.inr rfl⟩
        · simp only [checkStockAvailability, hg, if_pos hlt]
        · simp [itemUnavailableB, hg, hlt]
      · obtain ⟨item, hitem, hbad⟩ := h
        rcases List.mem_cons.mp hitem with heq | hmem
        · subst heq
          simp [itemUnavailableB, hg, hlt] at hbad
        · obtain ⟨msg, hmsg, bad, hbadmem, hb, hform⟩ := ih ⟨item, hmem, hbad⟩
          refine ⟨msg, ?_, bad, List.mem_cons_of_mem _ hbadmem, hb, hform⟩
          simp only [checkStockAvailability, hg, if_neg hlt]
          exact hmsg

theorem mapOrderItems_quantities {l : List OrderItemDoc} {items : List OrderItemReq}
    (h : mapOrderItems l = some items) :
    ∀ j ∈ items, ∃ it ∈ l, j.quantity = it.quantity := by
  induction l generalizing items with
  | nil =>
    simp only [mapOrderItems, Option.some.injEq] at h
    subst h
    simp
  | cons it rest ih =>
    cases hr : resolvedId it with
    | none =>
      simp only [mapOrderItems, hr] at h
      exact Option.noConfusion h
    | some i =>
      cases hm : mapOrderItems rest with
      | none =>
        simp only [mapOrderItems, hr, hm] at h
        exact Option.noConfusion h
      | some tailItems =>
        simp only [mapOrderItems, hr, hm, Option.map_some', Option.some.injEq] at h
        subst h
        intro j hj
        rcases List.mem_cons.mp hj with heq | hmem
        · subst heq
          exact ⟨it, List.mem_cons_self _ _, rfl⟩
        · obtain ⟨it2, hit2, hq⟩ := ih hm j hmem
          exact ⟨it2, List.mem_cons_of_mem _ hit2, hq⟩

theorem updateOrderDoc_some {st st' : Store} {odid : String} {f : OrderDoc → OrderDoc}
    (h : updateOrderDoc st odid f = some st') :
    ∃ od, getDoc st.orders odid = some od
      ∧ st'.bakeryItems = st.bakeryItems
      ∧ st'.orders = setDoc st.orders odid (f od) := by
  cases hg : getDoc st.orders odid with
  | none =>
    simp only [updateOrderDoc, hg] at h
    exact Option.noConfusion h
  | some od =>
    simp only [updateOrderDoc, hg, Option.some.injEq] at h
    exact ⟨od, rfl, by rw [← h], by rw [← h]⟩

theorem natToBytesBE_length (n x : Nat) : (natToBytesBE n x).length = n := by
  simp [natToBytesBE]

theorem hash8Bytes_length (h : Hash8) : (hash8Bytes h).length = 32 := by
  simp [hash8Bytes, natToBytesBE_length]

theorem sha256_length (msg : List Nat) : (sha256 msg).length = 32 := by
  simp [sha256, hash8Bytes_length]

theorem hmacSha256_length (k m : List Nat) : (hmacSha256 k m).length = 32 := by
  simp [hmacSha256, sha256_length]

theorem bytesToHex_data_length (bs : List Nat) :
    (bytesToHex bs).data.length = 2 * bs.length := by
  show ((bs.map byteToHex).flatten).length = 2 * bs.length
  induction bs with
  | nil => simp
  | cons b rest ih =>
    have hb : (byteToHex b).length = 2 := rfl
    simp [hb, ih]
    omega

theorem hmacSha256Hex_data_length (k m : String) :
    (hmacSha256Hex k m).data.length = 64 := by
  show (bytesToHex (hmacSha256 (strBytes k) (strBytes m))).data.length = 64
  rw [bytesToHex_data_length, hmacSha256_length]

theorem jsTruthy_hmac (k m : String) : jsTruthy (some (hmacSha256Hex k m)) = true := by
  have hlen := hmacSha256Hex_data_length k m
  simp only [jsTruthy]
  cases hd : (hmacSha256Hex k m).data with
  | nil => rw [hd] at hlen; simp at hlen
  | cons c cs => rfl

theorem verifyAccepts_iff (secret oid pid sig : String) :
    verifyAccepts secret oid pid sig = true
      ↔ sig = hmacSha256Hex secret (oid ++ "|" ++ pid) := by
  simp only [verifyAccepts, signaturesEqual, beq_iff_eq]
  exact eq_comm

theorem verifyAccepts_false {secret oid pid sig : String}
    (h : sig ≠ hmacSha256Hex secret (oid ++ "|" ++ pid)) :
    verifyAccepts secret oid pid sig = false := by
  rw [Bool.eq_false_iff]
  intro hcon
  exact h ((verifyAccepts_iff ..).mp hcon)

theorem verifyAccepts_self (secret oid pid : String) :
    verifyAccepts secret oid pid (hmacSha256Hex secret (oid ++ "|" ++ pid)) = true :=
  (verifyAccepts_iff ..).mpr rfl

theorem paymentOrderHandler_unavailable {st : Store} {gw : GwResult} {a : Int}
    (ha : 0 < a) {items : List OrderItemReq} (hne : items ≠ []) {msg : String}
    (hchk : checkStockAvailability st items = .unavailable msg) :
    paymentOrderHandler st gw (some a) (some items) = ⟨.badRequest msg, st, false⟩ := by
  have hav : amountValid (some a) = true := by simp [amountValid, ha]
  have hie : items.isEmpty = false := by
    cases items
    · exact absurd rfl hne
    · rfl
  simp [paymentOrderHandler, hav, hie, hchk]

theorem paymentOrderHandler_available {st : Store} (gw : GwResult) {a : Int}
    (ha : 0 < a) {items : List OrderItemReq} (hne : items ≠ [])
    (hchk : checkStockAvailability st items = .available) :
    ∃ st1, decrementStock st items = some st1 ∧
      paymentOrderHandler st gw (some a) (some items)
        = (match gw with
            | .ok oid => ⟨.ok oid, st1, true⟩
            | .err m => ⟨.serverError m, st1, true⟩) := by
  obtain ⟨st1, hst1⟩ : ∃ st1, decrementStock st items = some st1 := by
    apply applyIncrements_isSome
    intro p hp
    obtain ⟨i, hi, rfl⟩ := List.mem_map.mp hp
    obtain ⟨d, hd, _⟩ := check_available_mem hchk i hi
    exact ⟨d, hd⟩
  refine ⟨st1, hst1, ?_⟩
  have hav : amountValid (some a) = true := by simp [amountValid, ha]
  have hie : items.isEmpty = false := by
    cases items
    · exact absurd rfl hne
    · rfl
  simp [paymentOrderHandler, hav, hie, hchk, hst1]

theorem mismatchBranch_missing {st : Store} {odid : String}
    (h : getDoc st.orders odid = none) :
    mismatchBranch st odid = ⟨.serverError "no document to update", st, false⟩ := by
  simp [mismatchBranch, h]

theorem successBranch_missing {st : Store} {pid odid : String}
    (h : getDoc st.orders odid = none) :
    successBranch st pid odid = ⟨.notFound, st, false⟩ := by
  simp [successBranch, h]

theorem successBranch_found {st : Store} {pid odid : String} {od : OrderDoc}
    (h : getDoc st.orders odid = some od) :
    successBranch st pid odid
      = ⟨.confirmed,
         Store.mk st.bakeryItems (setDoc st.orders odid (confirmOrder pid od)), false⟩ := by
  simp [successBranch, h, updateOrderDoc]

theorem mismatchBranch_found {st : Store} {odid : String} {od : OrderDoc}
    (hod : getDoc st.orders odid = some od) {items : List OrderItemReq}
    (hmap : mapOrderItems (od.items.getD []) = some items) {st1 : Store}
    (hrestock : restockItems st items = some st1) :
    mismatchBranch st odid
      = ⟨.cancelled,
         Store.mk st1.bakeryItems (setDoc st1.orders odid (cancelOrder od)), false⟩ := by
  have hord : st1.orders = st.orders := applyIncrements_orders hrestock
  have hod1 : getDoc st1.orders odid = some od := by rw [hord]; exact hod
  simp [mismatchBranch, hod, hmap, hrestock, updateOrderDoc, hod1]

theorem paymentVerifyHandler_mismatch {secret : String} {st : Store}
    {oid pid sig odid : String}
    (h1 : jsTruthy (some oid) = true) (h2 : jsTruthy (some pid) = true)
    (h3 : jsTruthy (some sig) = true) (h4 : jsTruthy (some odid) = true)
    (hsig : sig ≠ hmacSha256Hex secret (oid ++ "|" ++ pid)) :
    paymentVerifyHandler secret st (some oid) (some pid) (some sig) (some odid)
      = mismatchBranch st odid := by
  have hacc : verifyAccepts secret oid pid sig = false := verifyAccepts_false hsig
  simp [paymentVerifyHandler, h1, h2, h3, h4, hacc]

theorem paymentVerifyHandler_match {secret : String} {st : Store}
    {oid pid odid : String}
    (h1 : jsTruthy (some oid) = true) (h2 : jsTruthy (some pid) = true)
    (h4 : jsTruthy (some odid) = true) :
    paymentVerifyHandler secret st (some oid) (some pid)
        (some (hmacSha256Hex secret (oid ++ "|" ++ pid))) (some odid)
      = successBranch st pid odid := by
  have h3 := jsTruthy_hmac secret (oid ++ "|" ++ pid)
  have hacc := verifyAccepts_self secret oid pid
  simp [paymentVerifyHandler, h1, h2, h3, h4, hacc]

theorem qtyOf_nonneg {st : Store} (hsn : stockNonneg st) {id : String} {v : Int}
    (hq : qtyOf st id = some v) : 0 ≤ v := by
  simp only [qtyOf] at hq
  cases hg : getDoc st.bakeryItems id with
  | none => rw [hg] at hq; exact Option.noConfusion hq
  | some doc =>
    rw [hg] at hq
    simp only [Option.map_some', Option.some.injEq] at hq
    subst hq
    exact hsn (id, doc) (getDoc_mem hg)

theorem stockNonneg_after_incs {st st' : Store} {incs : List (String × Int)}
    (hwf : (st.bakeryItems.map Prod.fst).Nodup)
    (happ : applyIncrements st incs = some st')
    (hbound : ∀ id v, qtyOf st id = some v → 0 ≤ v + incSum incs id) :
    stockNonneg st' := by
  intro p hp
  obtain ⟨k, dv⟩ := p
  show 0 ≤ dv.quantity.getD 0
  have hwf' : (st'.bakeryItems.map Prod.fst).Nodup := by
    rw [applyIncrements_keys happ]; exact hwf
  have hget : getDoc st'.bakeryItems k = some dv := mem_getDoc_nodup hwf' hp
  have hq' : qtyOf st' k = some (dv.quantity.getD 0) := by simp [qtyOf, hget]
  have hchar := applyIncrements_qtyOf happ k
  rw [hq'] at hchar
  cases hq : qtyOf st k with
  | none => rw [hq] at hchar; exact Option.noConfusion hchar
  | some v =>
    rw [hq] at hchar
    simp only [Option.map_some', Option.some.injEq] at hchar
    have hb := hbound k v hq
    omega

theorem ordersNonneg_of_orders_eq {st st' : Store} (h : st'.orders = st.orders)
    (h2 : ordersNonneg st) : ordersNonneg st' := by
  intro p hp
  exact h2 p (h ▸ hp)

theorem storeWF_after_incs {st st' : Store} {incs : List (String × Int)}
    (hwf : storeWF st) (happ : applyIncrements st incs = some st') : storeWF st' := by
  obtain ⟨h1, h2⟩ := hwf
  constructor
  · rw [applyIncrements_keys happ]; exact h1
  · rw [applyIncrements_orders happ]; exact h2

theorem goodStore_update_order {st st' : Store} {odid : String} {f : OrderDoc → OrderDoc}
    (hg : goodStore st) (hu : updateOrderDoc st odid f = some st')
    (hit : ∀ od, (f od).items = od.items) : goodStore st' := by
  obtain ⟨⟨hwb, hwo⟩, hsn, hon⟩ := hg
  obtain ⟨od, hod, hbak, hords⟩ := updateOrderDoc_some hu
  refine ⟨⟨by rw [hbak]; exact hwb, by rw [hords, setDoc_keys]; exact hwo⟩, ?_, ?_⟩
  · intro p hp
    rw [hbak] at hp
    exact hsn p hp
  · intro p hp
    rw [hords] at hp
    rcases setDoc_mem hp with hmem | heq
    · exact hon p hmem
    · subst heq
      intro it hmem2
      have hmem3 : it ∈ (f od).items.getD [] := hmem2
      rw [hit od] at hmem3
      exact hon (odid, od) (getDoc_mem hod) it hmem3

theorem runOp_po_good {st : Store} (gw : GwResult) (amount : Option Int)
    (oitems : Option (List OrderItemReq)) (hg : goodStore st)
    (hd : opDistinct (.po gw amount oitems) = true) :
    goodStore (runOp st (.po gw amount oitems)) := by
  obtain ⟨hwf, hsn, hon⟩ := hg
  simp only [runOp, paymentOrderHandler]
  split
  · exact ⟨hwf, hsn, hon⟩
  · split
    · exact ⟨hwf, hsn, hon⟩
    · rename_i items
      split
      · exact ⟨hwf, hsn, hon⟩
      · split
        · exact ⟨hwf, hsn, hon⟩
        · rename_i hchk
          split
          · exact ⟨hwf, hsn, hon⟩
          · rename_i st1 hdec
            have hnodup : (items.map OrderItemReq.id).Nodup := by
              simp only [opDistinct] at hd
              exact of_decide_eq_true hd
            have hsn1 : stockNonneg st1 := by
              apply stockNonneg_after_incs hwf.1 hdec
              intro id v hq
              by_cases hin : ∃ it ∈ items, it.id = id
              · obtain ⟨it, hit, rfl⟩ := hin
                rw [incSum_nodup_map _ hnodup hit]
                obtain ⟨d, hdoc, hle⟩ := check_available_mem hchk it hit
                have hqd : qtyOf st it.id = some (d.quantity.getD 0) := by
                  simp [qtyOf, hdoc]
                rw [hqd] at hq
                injection hq with hv
                omega
              · have hnm : ∀ p ∈ items.map (fun i => (i.id, -i.quantity)), p.1 ≠ id := by
                  intro p hp hcon
                  obtain ⟨i, hi, rfl⟩ := List.mem_map.mp hp
                  exact hin ⟨i, hi, hcon⟩
                rw [incSum_of_not_mem hnm]
                have := qtyOf_nonneg hsn hq
                omega
            have hwf1 : storeWF st1 := storeWF_after_incs ⟨hwf.1, hwf.2⟩ hdec
            have hon1 : ordersNonneg st1 :=
              ordersNonneg_of_orders_eq (applyIncrements_orders hdec) hon
            cases gw with
            | ok oid => exact ⟨hwf1, hsn1, hon1⟩
            | err m => exact ⟨hwf1, hsn1, hon1⟩

theorem mismatchBranch_good {st : Store} (odid : String) (hg : goodStore st) :
    goodStore (mismatchBranch st odid).store := by
  obtain ⟨hwf, hsn, hon⟩ := hg
  unfold mismatchBranch
  split
  · rename_i od hod
    split
    · exact ⟨hwf, hsn, hon⟩
    · rename_i items hmap
      split
      · exact ⟨hwf, hsn, hon⟩
      · rename_i st1 hres
        have hq : ∀ p ∈ items.map (fun i => (i.id, i.quantity)), 0 ≤ p.2 := by
          intro p hp
          obtain ⟨i, hi, rfl⟩ := List.mem_map.mp hp
          obtain ⟨it, hitmem, hqe⟩ := mapOrderItems_quantities hmap i hi
          have hq0 := hon (odid, od) (getDoc_mem hod) it hitmem
          show 0 ≤ i.quantity
          omega
        have hsn1 : stockNonneg st1 := by
          apply stockNonneg_after_incs hwf.1 hres
          intro id v hqv
          have h1 := qtyOf_nonneg hsn hqv
          have h2 : 0 ≤ incSum (items.map (fun i => (i.id, i.quantity))) id :=
            incSum_nonneg hq
          omega
        have hwf1 : storeWF st1 := storeWF_after_incs ⟨hwf.1, hwf.2⟩ hres
        have hon1 : ordersNonneg st1 :=
          ordersNonneg_of_orders_eq (applyIncrements_orders hres) hon
        split
        · exact ⟨hwf1, hsn1, hon1⟩
        · rename_i st2 hu
          exact goodStore_update_order ⟨hwf1, hsn1, hon1⟩ hu (fun od2 => rfl)
  · exact ⟨hwf, hsn, hon⟩

theorem successBranch_good {st : Store} (pid odid : String) (hg : goodStore st) :
    goodStore (successBranch st pid odid).store := by
  obtain ⟨hwf, hsn, hon⟩ := hg
  unfold successBranch
  split
  · exact ⟨hwf, hsn, hon⟩
  · rename_i od hod
    split
    · exact ⟨hwf, hsn, hon⟩
    · rename_i st1 hu
      exact goodStore_update_order ⟨hwf, hsn, hon⟩ hu (fun od2 => rfl)

theorem runOp_pv_good {st : Store} (secret : String) (oid pid sig odid : Option String)
    (hg : goodStore st) : goodStore (runOp st (.pv secret oid pid sig odid)) := by
  simp only [runOp, paymentVerifyHandler]
  split
  · exact hg
  · split
    · exact mismatchBranch_good _ hg
    · exact successBranch_good _ _ hg

theorem runOps_good {st : Store} {ops : List Op} (hg : goodStore st)
    (hd : ∀ op ∈ ops, opDistinct op = true) : goodStore (runOps st ops) := by
  induction ops generalizing st with
  | nil => exact hg
  | cons op rest ih =>
    have h1 : goodStore (runOp st op) := by
      cases op with
      | po gw a oitems => exact runOp_po_good gw a oitems hg (hd _ (List.mem_cons_self _ _))
      | pv secret oid pid sig odid => exact runOp_pv_good secret oid pid sig odid hg
    exact ih h1 (fun op2 hop2 => hd op2 (List.mem_cons_of_mem _ hop2))

-- ===========================================================================
-- Part 6: the claims.
-- ===========================================================================

/-- C1 (counterexample): a /api/payment-order request that passes validation
and the stock check (cake1: 5 available, 2 requested), after which the
gateway intent-creation call fails. The handler answers with the catch-all
500 carrying the gateway error message, and the store keeps the decremented
quantity 3: the reserved stock is NOT released, contradicting the claimed
compensation (release stock, terminate with GatewayUnavailable). -/
theorem C1_counterexample :
    paymentOrderHandler ⟨[("cake1", ⟨some 5⟩)], []⟩ (.err "gateway down") (some 100)
        (some [⟨"cake1", 2⟩])
      = ⟨.serverError "gateway down", ⟨[("cake1", ⟨some 3⟩)], []⟩, true⟩
    ∧ qtyOf ⟨[("cake1", ⟨some 5⟩)], []⟩ "cake1" = some 5 := by
  constructor
  · decide
  · decide

/-- C1 (amended): for every /api/payment-order request that passes input
validation and the stock check, with every item's quantity decremented, if
the gateway intent-creation call then fails the handler returns the 500
catch-all with the gateway error message and the store is left in the
decremented state: every stock quantity remains lowered by the request's
net decrement, and no restock happens. -/
theorem C1_gateway_failure_keeps_decrement {st st1 : Store} {m : String} {a : Int}
    (ha : 0 < a) {items : List OrderItemReq} (hne : items ≠ [])
    (hchk : checkStockAvailability st items = .available)
    (hdec : decrementStock st items = some st1) :
    paymentOrderHandler st (.err m) (some a) (some items) = ⟨.serverError m, st1, true⟩
    ∧ ∀ id, qtyOf st1 id = (qtyOf st id).map
        (fun v => v + incSum (items.map (fun i => (i.id, -i.quantity))) id) := by
  obtain ⟨st1x, hdecx, hrun⟩ := paymentOrderHandler_available (.err m) ha hne hchk
  rw [hdec] at hdecx
  injection hdecx with he
  subst he
  exact ⟨hrun, applyIncrements_qtyOf hdec⟩

/-- C1 (witness): the amended theorem at the counterexample's input. -/
theorem C1_gateway_failure_keeps_decrement_witness :
    (0 : Int) < 100 ∧ ([⟨"cake1", 2⟩] : List OrderItemReq) ≠ []
    ∧ checkStockAvailability ⟨[("cake1", ⟨some 5⟩)], []⟩ [⟨"cake1", 2⟩] = .available
    ∧ decrementStock ⟨[("cake1", ⟨some 5⟩)], []⟩ [⟨"cake1", 2⟩]
        = some ⟨[("cake1", ⟨some 3⟩)], []⟩
    ∧ paymentOrderHandler ⟨[("cake1", ⟨some 5⟩)], []⟩ (.err "down") (some 100)
        (some [⟨"cake1", 2⟩])
      = ⟨.serverError "down", ⟨[("cake1", ⟨some 3⟩)], []⟩, true⟩
    ∧ qtyOf ⟨[("cake1", ⟨some 3⟩)], []⟩ "cake1" = some 3 :=
  ⟨by decide, by decide, by decide, by decide,
    (@C1_gateway_failure_keeps_decrement ⟨[("cake1", ⟨some 5⟩)], []⟩
        ⟨[("cake1", ⟨some 3⟩)], []⟩ "down" 100 (by decide) [⟨"cake1", 2⟩]
        (by decide) (by decide) (by decide)).1,
    ((@C1_gateway_failure_keeps_decrement ⟨[("cake1", ⟨some 5⟩)], []⟩
        ⟨[("cake1", ⟨some 3⟩)], []⟩ "down" 100 (by decide) [⟨"cake1", 2⟩]
        (by decide) (by decide) (by decide)).2 "cake1").trans (by decide)⟩

/-- C2: the signature verification step at src/server.js:156 compares the
computed HMAC with the client-supplied signature by plain JS string
inequality (`!==`), i.e. it is extensionally exactly string equality; no
constant-time primitive (crypto.timingSafeEqual) is involved, which the
spec itself flags as a defect. -/
theorem C2_comparison_is_string_equality (g c : String) :
    signaturesEqual g c = decide (g = c) := by
  by_cases h : g = c <;> simp [signaturesEqual, h]

/-- C3: the verification step accepts (takes the success branch) exactly
when the claimed signature equals the lowercase hex HMAC-SHA256 digest,
keyed with the secret, of orderRef + "|" + paymentRef; hence any mutation
of a matching signature is rejected. -/
theorem C3_accept_iff_hmac (secret oid pid sig : String) :
    verifyAccepts secret oid pid sig = true
      ↔ sig = hmacSha256Hex secret (oid ++ "|" ++ pid) := by
  simp only [verifyAccepts, signaturesEqual, beq_iff_eq]
  exact eq_comm

/-- C4 (counterexample): a signature-mismatch request whose orderDocId names
an existing Order whose single item references a stock document that does
not exist. The batched restock throws, so the handler answers the catch-all
500 and leaves the store untouched: the order is NOT cancelled and the
response is not the claimed 400 cancellation. -/
theorem C4_counterexample :
    "x" ≠ hmacSha256Hex "k" ("o" ++ "|" ++ "p")
    ∧ paymentVerifyHandler "k"
        ⟨[], [("d", ⟨some [⟨some "ghost", none, 1⟩], some "pending", some "pending", none⟩)]⟩
        (some "o") (some "p") (some "x") (some "d")
      = ⟨.serverError "no document to update",
         ⟨[], [("d", ⟨some [⟨some "ghost", none, 1⟩], some "pending", some "pending", none⟩)]⟩,
         false⟩ := by
  constructor
  · decide
  · decide

/-- C4 (amended): for every /api/payment-verify request whose signature does
not match and whose orderDocId names an existing Order document, provided
every item of the persisted order maps to an id and the batched restock
commits (each referenced stock document exists), the handler restocks every
item by its persisted quantity, sets the order to cancelled/cancelled,
responds with the 400 signature-mismatch cancellation, and makes no refund
call. -/
theorem C4_mismatch_cancels_and_restocks {secret : String} {st : Store}
    {oid pid sig odid : String} {od : OrderDoc} {items : List OrderItemReq} {st1 : Store}
    (h1 : jsTruthy (some oid) = true) (h2 : jsTruthy (some pid) = true)
    (h3 : jsTruthy (some sig) = true) (h4 : jsTruthy (some odid) = true)
    (hsig : sig ≠ hmacSha256Hex secret (oid ++ "|" ++ pid))
    (hod : getDoc st.orders odid = some od)
    (hmap : mapOrderItems (od.items.getD []) = some items)
    (hres : restockItems st items = some st1) :
    paymentVerifyHandler secret st (some oid) (some pid) (some sig) (some odid)
      = ⟨.cancelled, Store.mk st1.bakeryItems (setDoc st1.orders odid (cancelOrder od)),
         false⟩
    ∧ (∀ id, qtyOf st1 id = (qtyOf st id).map
        (fun v => v + incSum (items.map (fun i => (i.id, i.quantity))) id))
    ∧ getDoc (setDoc st1.orders odid (cancelOrder od)) odid = some (cancelOrder od) := by
  refine ⟨?_, applyIncrements_qtyOf hres, ?_⟩
  · rw [paymentVerifyHandler_mismatch h1 h2 h3 h4 hsig, mismatchBranch_found hod hmap hres]
  · have hord : st1.orders = st.orders := applyIncrements_orders hres
    rw [getDoc_setDoc_self, hord, hod]
    rfl

/-- C4 (witness): the amended theorem on Scenario B's data (cake1 restored
from 3 to 5, order cancelled, 400 returned, no refund). -/
theorem C4_mismatch_cancels_and_restocks_witness :
    "x" ≠ hmacSha256Hex "k" ("o" ++ "|" ++ "p")
    ∧ getDoc (⟨[("cake1", ⟨some 3⟩)],
        [("d", ⟨some [⟨some "cake1", none, 2⟩], some "pending", some "pending", none⟩)]⟩
          : Store).orders "d"
      = some ⟨some [⟨some "cake1", none, 2⟩], some "pending", some "pending", none⟩
    ∧ restockItems ⟨[("cake1", ⟨some 3⟩)],
        [("d", ⟨some [⟨some "cake1", none, 2⟩], some "pending", some "pending", none⟩)]⟩
        [⟨"cake1", 2⟩]
      = some ⟨[("cake1", ⟨some 5⟩)],
          [("d", ⟨some [⟨some "cake1", none, 2⟩], some "pending", some "pending", none⟩)]⟩
    ∧ paymentVerifyHandler "k"
        ⟨[("cake1", ⟨some 3⟩)],
         [("d", ⟨some [⟨some "cake1", none, 2⟩], some "pending", some "pending", none⟩)]⟩
        (some "o") (some "p") (some "x") (some "d")
      = ⟨.cancelled,
         ⟨[("cake1", ⟨some 5⟩)],
          [("d", ⟨some [⟨some "cake1", none, 2⟩], some "cancelled", some "cancelled", none⟩)]⟩,
         false⟩ :=
  ⟨by decide, by decide, by decide,
    ((@C4_mismatch_cancels_and_restocks "k"
        ⟨[("cake1", ⟨some 3⟩)],
         [("d", ⟨some [⟨some "cake1", none, 2⟩], some "pending", some "pending", none⟩)]⟩
        "o" "p" "x" "d"
        ⟨some [⟨some "cake1", none, 2⟩], some "pending", some "pending", none⟩
        [⟨"cake1", 2⟩]
        ⟨[("cake1", ⟨some 5⟩)],
         [("d", ⟨some [⟨some "cake1", none, 2⟩], some "pending", some "pending", none⟩)]⟩
        (by decide) (by decide) (by decide) (by decide)
        (by decide) (by decide) (by decide) (by decide)).1).trans (by decide)⟩

/-- C5: for every /api/payment-order request passing the amount and items
validation in which some requested item is missing from the store or its
available quantity (a missing document or quantity field counting as zero
available) is below the requested quantity, the response is a 400 carrying
the stock-check message that names a failing item, the store is unchanged,
and no gateway call is made. -/
theorem C5_insufficient_stock {st : Store} (gw : GwResult) {a : Int}
    (ha : 0 < a) {items : List OrderItemReq} (hne : items ≠ [])
    (hbad : ∃ item ∈ items, itemUnavailableB st item = true) :
    ∃ msg, paymentOrderHandler st gw (some a) (some items) = ⟨.badRequest msg, st, false⟩
      ∧ ∃ bad ∈ items, itemUnavailableB st bad = true
        ∧ (msg = "Item with id " ++ bad.id ++ " not found"
           ∨ msg = "Item " ++ bad.id ++ " out of stock") := by
  obtain ⟨msg, hchk, bad, hmem, hb, hform⟩ := check_unavailable_of_bad hbad
  exact ⟨msg, paymentOrderHandler_unavailable ha hne hchk, bad, hmem, hb, hform⟩

/-- C5 (witness): Scenario C — stock cake1=1, requested 2: 400 "out of
stock", store unchanged, gateway not called. -/
theorem C5_insufficient_stock_witness :
    (0 : Int) < 50 ∧ ([⟨"cake1", 2⟩] : List OrderItemReq) ≠ []
    ∧ (∃ item ∈ ([⟨"cake1", 2⟩] : List OrderItemReq),
        itemUnavailableB ⟨[("cake1", ⟨some 1⟩)], []⟩ item = true)
    ∧ ∃ msg, paymentOrderHandler ⟨[("cake1", ⟨some 1⟩)], []⟩ (.ok "gw1") (some 50)
          (some [⟨"cake1", 2⟩])
        = ⟨.badRequest msg, ⟨[("cake1", ⟨some 1⟩)], []⟩, false⟩
      ∧ ∃ bad ∈ ([⟨"cake1", 2⟩] : List OrderItemReq),
          itemUnavailableB ⟨[("cake1", ⟨some 1⟩)], []⟩ bad = true
          ∧ (msg = "Item with id " ++ bad.id ++ " not found"
             ∨ msg = "Item " ++ bad.id ++ " out of stock") :=
  ⟨by decide, by decide, by decide,
    C5_insufficient_stock (.ok "gw1") (by decide) (by decide) (by decide)⟩

/-- C6 (counterexample): from a well-formed store with non-negative stock
(cake1 = 3), the single payment-order request listing cake1 twice with
quantity 2 passes the availability check (each line is checked against the
pre-decrement value 3) and the batched decrement then drives the quantity
to -1: the workflow does NOT reject every decrement that would make a
quantity negative. -/
theorem C6_counterexample :
    storeWF ⟨[("cake1", ⟨some 3⟩)], []⟩
    ∧ stockNonneg ⟨[("cake1", ⟨some 3⟩)], []⟩
    ∧ qtyOf (runOps ⟨[("cake1", ⟨some 3⟩)], []⟩
        [.po (.ok "gw1") (some 100) (some [⟨"cake1", 2⟩, ⟨"cake1", 2⟩])]) "cake1"
      = some (-1) := by
  refine ⟨by decide, by decide, by decide⟩

/-- C6 (amended): starting from a well-formed store (unique document ids,
as Firestore guarantees) in which every stock quantity and every persisted
order item quantity is non-negative, every sequential execution of the two
handlers in which each payment-order request lists pairwise-distinct item
ids keeps every stock quantity non-negative. (Without the distinctness
restriction the invariant fails, as the counterexample shows.) -/
theorem C6_stock_never_negative (st : Store) (ops : List Op)
    (hwf : storeWF st) (hsn : stockNonneg st) (hon : ordersNonneg st)
    (hd : ops.all opDistinct = true) :
    stockNonneg (runOps st ops) := by
  have hd2 : ∀ op ∈ ops, opDistinct op = true := by
    intro op hop
    exact List.all_eq_true.mp hd op hop
  exact (runOps_good ⟨hwf, hsn, hon⟩ hd2).2.1

/-- C6 (witness): a two-request execution (a distinct-id order then a
forged-signature completion) from a concrete well-formed store. -/
theorem C6_stock_never_negative_witness :
    storeWF ⟨[("cake1", ⟨some 3⟩)],
        [("d", ⟨some [⟨some "cake1", none, 1⟩], some "pending", some "pending", none⟩)]⟩
    ∧ stockNonneg ⟨[("cake1", ⟨some 3⟩)],
        [("d", ⟨some [⟨some "cake1", none, 1⟩], some "pending", some "pending", none⟩)]⟩
    ∧ ordersNonneg ⟨[("cake1", ⟨some 3⟩)],
        [("d", ⟨some [⟨some "cake1", none, 1⟩], some "pending", some "pending", none⟩)]⟩
    ∧ ([Op.po (.ok "gw1") (some 10) (some [⟨"cake1", 2⟩]),
        Op.pv "k" (some "o") (some "p") (some "x") (some "d")].all opDistinct = true)
    ∧ stockNonneg (runOps ⟨[("cake1", ⟨some 3⟩)],
        [("d", ⟨some [⟨some "cake1", none, 1⟩], some "pending", some "pending", none⟩)]⟩
        [Op.po (.ok "gw1") (some 10) (some [⟨"cake1", 2⟩]),
         Op.pv "k" (some "o") (some "p") (some "x") (some "d")]) :=
  ⟨by decide, by decide, by decide, by decide,
    C6_stock_never_negative _ _ (by decide) (by decide) (by decide) (by decide)⟩

/-- C7: Scenario A end to end, for every gateway secret. The order for
2 cake1 against stock 5 succeeds and decrements the stock to 3; completion
with the correctly computed signature confirms the order (statuses
confirmed/confirmed, gateway payment id recorded) and performs no further
stock check or mutation: the bakeryItems collection is bit-for-bit the one
the order step produced, with cake1 = 3. -/
theorem C7_scenario_a (secret : String) :
    paymentOrderHandler
        ⟨[("cake1", ⟨some 5⟩)],
         [("doc1", ⟨some [⟨some "cake1", none, 2⟩], some "pending", some "pending", none⟩)]⟩
        (.ok "rzp1") (some 100) (some [⟨"cake1", 2⟩])
      = ⟨.ok "rzp1",
         ⟨[("cake1", ⟨some 3⟩)],
          [("doc1", ⟨some [⟨some "cake1", none, 2⟩], some "pending", some "pending", none⟩)]⟩,
         true⟩
    ∧ paymentVerifyHandler secret
        ⟨[("cake1", ⟨some 3⟩)],
         [("doc1", ⟨some [⟨some "cake1", none, 2⟩], some "pending", some "pending", none⟩)]⟩
        (some "rzp1") (some "pay1")
        (some (hmacSha256Hex secret ("rzp1" ++ "|" ++ "pay1"))) (some "doc1")
      = ⟨.confirmed,
         ⟨[("cake1", ⟨some 3⟩)],
          [("doc1",
            ⟨some [⟨some "cake1", none, 2⟩], some "confirmed", some "confirmed", some "pay1"⟩)]⟩,
         false⟩
    ∧ qtyOf ⟨[("cake1", ⟨some 3⟩)],
        [("doc1",
          ⟨some [⟨some "cake1", none, 2⟩], some "confirmed", some "confirmed", some "pay1"⟩)]⟩
        "cake1" = some 3 := by
  refine ⟨by decide, ?_, by decide⟩
  have hod : getDoc (⟨[("cake1", ⟨some 3⟩)],
      [("doc1", ⟨some [⟨some "cake1", none, 2⟩], some "pending", some "pending", none⟩)]⟩
        : Store).orders "doc1"
      = some ⟨some [⟨some "cake1", none, 2⟩], some "pending", some "pending", none⟩ := by
    decide
  rw [paymentVerifyHandler_match (by decide) (by decide) (by decide), successBranch_found hod]
  decide

/-- C8: for every /api/payment-verify request with the correctly computed
signature whose orderDocId names no existing Order document, the response
is the 404 OrderNotFound, the store is returned unchanged (stock remains
reserved, no Order written), and no refund call is made. -/
theorem C8_valid_sig_missing_order (secret : String) (st : Store) (oid pid odid : String)
    (h1 : jsTruthy (some oid) = true) (h2 : jsTruthy (some pid) = true)
    (h4 : jsTruthy (some odid) = true)
    (hmiss : getDoc st.orders odid = none) :
    paymentVerifyHandler secret st (some oid) (some pid)
        (some (hmacSha256Hex secret (oid ++ "|" ++ pid))) (some odid)
      = ⟨.notFound, st, false⟩ := by
  rw [paymentVerifyHandler_match h1 h2 h4, successBranch_missing hmiss]

/-- C8 (witness): Scenario D on a concrete store still holding the reserved
stock but no order document. -/
theorem C8_valid_sig_missing_order_witness :
    jsTruthy (some "o") = true ∧ jsTruthy (some "p") = true ∧ jsTruthy (some "d") = true
    ∧ getDoc (⟨[("cake1", ⟨some 2⟩)], []⟩ : Store).orders "d" = none
    ∧ paymentVerifyHandler "k" ⟨[("cake1", ⟨some 2⟩)], []⟩ (some "o") (some "p")
        (some (hmacSha256Hex "k" ("o" ++ "|" ++ "p"))) (some "d")
      = ⟨.notFound, ⟨[("cake1", ⟨some 2⟩)], []⟩, false⟩ :=
  ⟨by decide, by decide, by decide, by decide,
    C8_valid_sig_missing_order "k" ⟨[("cake1", ⟨some 2⟩)], []⟩ "o" "p" "d"
      (by decide) (by decide) (by decide) (by decide)⟩

/-- C9 (counterexample): restockItems keeps no reservation intent record and
is not idempotent: releasing [a, 2] from quantity 5 yields 7, and releasing
again yields 9 — a second Release of the same item set increments a second
time. It is also not safe when a document is missing: the whole batch
rejects. -/
theorem C9_counterexample :
    restockItems ⟨[("a", ⟨some 5⟩)], []⟩ [⟨"a", 2⟩] = some ⟨[("a", ⟨some 7⟩)], []⟩
    ∧ restockItems ⟨[("a", ⟨some 7⟩)], []⟩ [⟨"a", 2⟩] = some ⟨[("a", ⟨some 9⟩)], []⟩
    ∧ restockItems ⟨[], []⟩ [⟨"a", 2⟩] = none := by
  refine ⟨by decide, by decide, by decide⟩

/-- C9 (amended): restockItems is a plain batched increment: applying it
twice with the same item set adds every item's quantity twice (double
release); there is no reservation intent record making it idempotent. -/
theorem C9_release_double_increments {st st1 st2 : Store} {items : List OrderItemReq}
    (hr1 : restockItems st items = some st1) (hr2 : restockItems st1 items = some st2) :
    ∀ id, qtyOf st2 id = (qtyOf st id).map
      (fun v => v + (incSum (items.map (fun i => (i.id, i.quantity))) id
                     + incSum (items.map (fun i => (i.id, i.quantity))) id)) := by
  intro id
  have e1 := applyIncrements_qtyOf hr1 id
  have e2 := applyIncrements_qtyOf hr2 id
  rw [e2, e1]
  cases qtyOf st id <;> simp [add_assoc]

/-- C9 (witness): the amended theorem on the counterexample's store: after
two releases of [a, 2] from 5, the quantity is 9, not 7. -/
theorem C9_release_double_increments_witness :
    restockItems ⟨[("a", ⟨some 5⟩)], []⟩ [⟨"a", 2⟩] = some ⟨[("a", ⟨some 7⟩)], []⟩
    ∧ restockItems ⟨[("a", ⟨some 7⟩)], []⟩ [⟨"a", 2⟩] = some ⟨[("a", ⟨some 9⟩)], []⟩
    ∧ qtyOf ⟨[("a", ⟨some 9⟩)], []⟩ "a" = some 9 :=
  ⟨by decide, by decide,
    ((@C9_release_double_increments ⟨[("a", ⟨some 5⟩)], []⟩ ⟨[("a", ⟨some 7⟩)], []⟩
        ⟨[("a", ⟨some 9⟩)], []⟩ [⟨"a", 2⟩] (by decide) (by decide)) "a").trans
      (by decide)⟩

/-- C10: for every /api/payment-verify request whose signature does not
match and whose orderDocId names no existing Order document, the handler
skips the restock (the order snapshot does not exist), its unconditional
update of the missing order document rejects, and the response is the
catch-all 500, not the 400 cancellation; the store is unchanged and no
refund call is made. -/
theorem C10_mismatch_missing_order {secret : String} {st : Store}
    {oid pid sig odid : String}
    (h1 : jsTruthy (some oid) = true) (h2 : jsTruthy (some pid) = true)
    (h3 : jsTruthy (some sig) = true) (h4 : jsTruthy (some odid) = true)
    (hsig : sig ≠ hmacSha256Hex secret (oid ++ "|" ++ pid))
    (hmiss : getDoc st.orders odid = none) :
    paymentVerifyHandler secret st (some oid) (some pid) (some sig) (some odid)
      = ⟨.serverError "no document to update", st, false⟩ := by
  rw [paymentVerifyHandler_mismatch h1 h2 h3 h4 hsig, mismatchBranch_missing hmiss]

/-- C10 (witness): a concrete mismatching completion against an empty
store. -/
theorem C10_mismatch_missing_order_witness :
    ("x" ≠ hmacSha256Hex "k" ("o" ++ "|" ++ "p"))
    ∧ getDoc (⟨[], []⟩ : Store).orders "d" = none
    ∧ paymentVerifyHandler "k" ⟨[], []⟩ (some "o") (some "p") (some "x") (some "d")
      = ⟨.serverError "no document to update", ⟨[], []⟩, false⟩ :=
  ⟨by decide, by decide,
    C10_mismatch_missing_order (by decide) (by decide) (by decide) (by decide)
      (by decide) (by decide)⟩

-- ===========================================================================
-- Part 7: sanity anchors for the crypto model (standard test vectors).
-- ===========================================================================

/-- FIPS 180-4 test vector: SHA-256 of "abc". -/
theorem sha256_abc_vector :
    bytesToHex (sha256 (strBytes "abc"))
      = "ba7816bf8f01cfea414140de5dae2223b00361a396177a9cb410ff61f20015ad" := by decide

/-- RFC 4231 test case 2 for HMAC-SHA256. -/
theorem hmac_rfc4231_vector :
    hmacSha256Hex "Jefe" "what do ya want for nothing?"
      = "5bdcc146bf60754e6a042426089575c75a003f089d2739839dec58b964ec3843" := by decide
